import Mathlib

set_option maxRecDepth 10000

/-
Verification of the call-tree tracer `methodlogger.py`.

The whole module manipulates a single per-thread context (`thread_local`),
a global pluggable sink (`logfn`), and emits formatted lines.  We embed one
execution unit: a record `ThreadLocal` holds the fields the source reads and
writes (`depth`, `start_str`, `logger_args`), plus an abstract clock that
models successive `time.time()` readings in ticks of 10^-5 seconds (each
reading bumps the clock, and `f"{t:.5f}"` is modelled by `fmtTime`).

The sink is modelled as a function from the line and the extra sink args to
`Option PyErr` (`none` = the call returned, `some e` = the sink raised `e`).
A sink in this model only emits; re-entrant sinks that would themselves call
back into the tracer are out of scope.  Every attempted sink call is recorded
in the returned trace, in order.

Bodies of wrapped callables are deep-embedded (`Body`): a body is a finite
sequence of free-text `log` calls and nested traced calls, ending in a normal
return or a raise.  Python exception objects are modelled by `PyErr`; the
`id` field stands for object identity, and `isExc` records whether the object
is an instance of `Exception` (as opposed to a bare `BaseException` such as
`KeyboardInterrupt`, which `except Exception` does not catch).

Python values are modelled by `PyVal`: their `str()` rendering plus the set
of attribute names they expose (used by `hasattr` in the self-elision
heuristic and by callability checks).
-/

/-- Extra positional/keyword sink parameters (`*logger_args, **logger_kwargs`
in the source), modelled as one opaque list of rendered values. -/
abbrev SinkArgs := List String

/-- A Python exception object: `isExc` is true when the object is an
`Exception` instance (so `except Exception` catches it), `kind` is
`e.__class__.__name__`, `msg` is `str(e)`, and `id` models object identity. -/
structure PyErr where
  isExc : Bool
  kind : String
  msg : String
  id : Nat
deriving DecidableEq, Repr

/-- A Python value: its `str()` rendering and the attribute names it
exposes (for `hasattr`). -/
structure PyVal where
  repr : String
  attrs : List String
deriving DecidableEq, Repr

/-- One attempted call of the sink (`logfn(line, *logger_args, ...)`). -/
structure SinkCall where
  line : String
  args : SinkArgs
deriving DecidableEq, Repr

/-- The observable behaviour of the installed sink: `none` means the call
returned, `some e` means the sink raised `e`. -/
abbrev Sink := String → SinkArgs → Option PyErr

/-- The per-execution-unit state `thread_local` of the source (lines 61,
82-88, 92, 106, 116-121, 148-150), plus the model clock for `time.time()`. -/
structure ThreadLocal where
  depth : Nat
  start_str : Option String
  logger_args : SinkArgs
  clock : Nat
deriving DecidableEq, Repr

/-- A sink that never raises; models emissions that succeed. -/
def perfectSink : Sink := fun _ _ => none

/-- Source line 72: `str(val)[:50]`. -/
def truncate_str (val : PyVal) : String := val.repr.take 50

/-- The five digits after the decimal point of `f"{t:.5f}"` for a clock of
`t` ticks of 10^-5 seconds: digit `i` is `t / 10^(4-i) mod 10`. -/
def frac5 (t : Nat) : String :=
  String.mk ((List.range 5).map fun i => Nat.digitChar (t / 10 ^ (4 - i) % 10))

/-- Rendering of `f"{time.time():.5f}"` for a clock of `t` ticks of
10^-5 seconds. -/
def fmtTime (t : Nat) : String := toString (t / 100000) ++ "." ++ frac5 t

/-- Python `'. ' * indent` (source lines 96, 114, 132, 144). -/
def dots : Nat → String
  | 0 => ""
  | n + 1 => ". " ++ dots n

/-- Source lines 74-88, `_print_start_once`: if `thread_local.start_str` is
truthy, emit it through the sink with the recorded sink args; the clearing
assignment on line 88 runs only if that emission did not raise. -/
def _print_start_once (sink : Sink) (st : ThreadLocal) :
    ThreadLocal × List SinkCall × Option PyErr :=
  match st.start_str with
  | some s =>
    if s = "" then ({ st with start_str := none }, [], none)
    else
      match sink s st.logger_args with
      | some e => (st, [⟨s, st.logger_args⟩], some e)
      | none => ({ st with start_str := none }, [⟨s, st.logger_args⟩], none)
  | none => ({ st with start_str := none }, [], none)

/-- The lines `_print_start_once` emits from state `st` when the sink
succeeds: the pending tag with its recorded sink args if the pending slot is
truthy, nothing otherwise. -/
def flushTrace (st : ThreadLocal) : List SinkCall :=
  match st.start_str with
  | some s => if s = "" then [] else [⟨s, st.logger_args⟩]
  | none => []

/-- The text of a message line (source line 96). -/
def msgLine (tn : String) (indent t : Nat) (message : String) : String :=
  fmtTime t ++ "|" ++ tn ++ ": " ++ dots indent ++ "\"" ++ message ++ "\""

/-- Source lines 90-98, `log`: read the depth, flush any pending open tag,
then emit one message line at that depth. -/
def log (sink : Sink) (tn : String) (message : String) (la : SinkArgs)
    (st : ThreadLocal) : ThreadLocal × List SinkCall × Option PyErr :=
  let indent := st.depth
  match _print_start_once sink st with
  | (st1, tr1, some e) => (st1, tr1, some e)
  | (st1, tr1, none) =>
    let line := msgLine tn indent st1.clock message
    (({ st1 with clock := st1.clock + 1 }), tr1 ++ [⟨line, la⟩], sink line la)

/-- Source lines 108-113: the rendered argument list, with the first
positional argument elided when it exposes an attribute named after the
wrapped callable (`args and hasattr(args[0], func.__name__)`). -/
def argStrings (name : String) (args : List PyVal)
    (kwargs : List (String × PyVal)) : List String :=
  let arg_strs :=
    match args with
    | [] => args.map truncate_str
    | a :: _ =>
      if name ∈ a.attrs then (args.map truncate_str).tail
      else args.map truncate_str
  arg_strs ++ kwargs.map fun p => p.1 ++ "=" ++ truncate_str p.2

/-- The open-tag text built on source line 114 (not yet emitted). -/
def startString (tn name : String) (indent t : Nat) (argStrs : List String) :
    String :=
  fmtTime t ++ "|" ++ tn ++ ": " ++ dots indent ++ "<" ++ name ++ "(" ++
    String.intercalate (", ") argStrs ++ ")>"

/-- The self-closed success line of source line 127:
`start_str[:-1] + f" -> {truncate_str(result)} />"`. -/
def selfCloseOk (start_str : String) (result : PyVal) : String :=
  start_str.dropRight 1 ++ " -> " ++ truncate_str result ++ " />"

/-- The self-closed error line of source line 139. -/
def selfCloseErr (start_str : String) (e : PyErr) : String :=
  start_str.dropRight 1 ++ " !! " ++ e.kind ++ ": " ++ e.msg ++ " />"

/-- The close-tag success line of source line 132. -/
def closeOkLine (tn name : String) (indent t : Nat) (result : PyVal) : String :=
  fmtTime t ++ "|" ++ tn ++ ": " ++ dots indent ++ "</" ++ name ++ " -> " ++
    truncate_str result ++ ">"

/-- The close-tag error line of source line 144. -/
def closeErrLine (tn name : String) (indent t : Nat) (e : PyErr) : String :=
  fmtTime t ++ "|" ++ tn ++ ": " ++ dots indent ++ "</" ++ name ++ " !! " ++
    e.kind ++ ": " ++ e.msg ++ ">"

/-- The `finally` block of source lines 148-150: restore the depth and clear
the pending slot. -/
def finallyUpd (indent : Nat) (st : ThreadLocal) : ThreadLocal :=
  { st with depth := indent, start_str := none }

/-- The `except Exception` handler body of source lines 136-146, given the
caught error `e`: emit the self-closed or close-tag error line, then
re-raise.  If the handler's own emission raises `e3`, then `e3` propagates
in place of `e` (Python semantics for an exception raised inside an
`except` block); the returned `PyErr` is the one that propagates. -/
def exceptRun (sink : Sink) (tn name : String) (la : SinkArgs) (indent : Nat)
    (start_str : String) (e : PyErr) (st : ThreadLocal) :
    ThreadLocal × List SinkCall × PyErr :=
  if st.start_str = some start_str then
    let line := selfCloseErr start_str e
    (st, [⟨line, la⟩], match sink line la with | none => e | some e3 => e3)
  else
    let line := closeErrLine tn name indent st.clock e
    (({ st with clock := st.clock + 1 }), [⟨line, la⟩],
      match sink line la with | none => e | some e3 => e3)

/-- Source lines 120-150: everything inside the `try` statement of
`wrapped`, given the already-flushed state `st1` (after line 115) and the
already-built open-tag text.  Sets the sink-args and pending slot
(lines 116-118), bumps the depth (line 121), runs the body `runB`
(line 122), then emits the self-closed or close-tag line, routing any
`Exception` (from the body or from the success emission itself) through the
`except` handler, and finally restores depth and pending (lines 148-150).
A `BaseException` that is not an `Exception` skips the handler. -/
def wrappedCore (runB : ThreadLocal → ThreadLocal × List SinkCall × Except PyErr PyVal)
    (sink : Sink) (tn name : String) (la : SinkArgs) (indent : Nat)
    (start_str : String) (st1 : ThreadLocal) :
    ThreadLocal × List SinkCall × Except PyErr PyVal :=
  let st2 : ThreadLocal :=
    { st1 with logger_args := la, start_str := some start_str,
               depth := indent + 1 }
  match runB st2 with
  | (st3, tr2, Except.ok result) =>
    if st3.start_str = some start_str then
      let line := selfCloseOk start_str result
      match sink line la with
      | none => (finallyUpd indent st3, tr2 ++ [⟨line, la⟩], Except.ok result)
      | some e2 =>
        if e2.isExc then
          let h := exceptRun sink tn name la indent start_str e2 st3
          (finallyUpd indent h.1, tr2 ++ [⟨line, la⟩] ++ h.2.1,
            Except.error h.2.2)
        else (finallyUpd indent st3, tr2 ++ [⟨line, la⟩], Except.error e2)
    else
      let line := closeOkLine tn name indent st3.clock result
      let st4 : ThreadLocal := { st3 with clock := st3.clock + 1 }
      match sink line la with
      | none => (finallyUpd indent st4, tr2 ++ [⟨line, la⟩], Except.ok result)
      | some e2 =>
        if e2.isExc then
          let h := exceptRun sink tn name la indent start_str e2 st4
          (finallyUpd indent h.1, tr2 ++ [⟨line, la⟩] ++ h.2.1,
            Except.error h.2.2)
        else (finallyUpd indent st4, tr2 ++ [⟨line, la⟩], Except.error e2)
  | (st3, tr2, Except.error e) =>
    if e.isExc then
      let h := exceptRun sink tn name la indent start_str e st3
      (finallyUpd indent h.1, tr2 ++ h.2.1, Except.error h.2.2)
    else (finallyUpd indent st3, tr2, Except.error e)

/-- Source lines 105-150, one invocation of `wrapped` with the body
abstracted as `runB`: read the depth, build the open-tag text (line 114,
reading `time.time()`), flush any pending parent tag (line 115; if that
emission raises, the error propagates before the `try` block is entered,
so nothing is restored), then run `wrappedCore`. -/
def wrappedStep (runB : ThreadLocal → ThreadLocal × List SinkCall × Except PyErr PyVal)
    (sink : Sink) (tn name : String) (la : SinkArgs) (args : List PyVal)
    (kwargs : List (String × PyVal)) (st : ThreadLocal) :
    ThreadLocal × List SinkCall × Except PyErr PyVal :=
  let indent := st.depth
  let start_str := startString tn name indent st.clock (argStrings name args kwargs)
  match _print_start_once sink ({ st with clock := st.clock + 1 }) with
  | (st1, tr1, some e) => (st1, tr1, Except.error e)
  | (st1, tr1, none) =>
    let r := wrappedCore runB sink tn name la indent start_str st1
    (r.1, tr1 ++ r.2.1, r.2.2)

/-- the body of a wrapped callable, deep-embedded: a finite sequence of
`log` calls and nested traced calls ending in a return or a raise.  A nested
call's result is not bound (the continuation ignores it), which is enough
for every claim considered here. -/
inductive Body where
  | ret (v : PyVal)
  | raiseE (e : PyErr)
  | logThen (message : String) (la : SinkArgs) (k : Body)
  | callThen (name : String) (la : SinkArgs) (b : Body) (args : List PyVal)
      (kwargs : List (String × PyVal)) (k : Body)
deriving Repr

/-- Execution of a body on the current execution unit: `log` calls go
through `log`, nested traced calls through `wrappedStep`, and an error
aborts the rest of the sequence (no handler inside bodies). -/
def runBody (sink : Sink) (tn : String) :
    Body → ThreadLocal → ThreadLocal × List SinkCall × Except PyErr PyVal
  | Body.ret v, st => (st, [], Except.ok v)
  | Body.raiseE e, st => (st, [], Except.error e)
  | Body.logThen m la k, st =>
    match log sink tn m la st with
    | (st1, tr1, some e) => (st1, tr1, Except.error e)
    | (st1, tr1, none) =>
      let r := runBody sink tn k st1
      (r.1, tr1 ++ r.2.1, r.2.2)
  | Body.callThen n la b args kwargs k, st =>
    match wrappedStep (fun s => runBody sink tn b s) sink tn n la args kwargs st with
    | (st1, tr1, Except.error e) => (st1, tr1, Except.error e)
    | (st1, tr1, Except.ok _) =>
      let r := runBody sink tn k st1
      (r.1, tr1 ++ r.2.1, r.2.2)

/-- One invocation of the wrapped form of a callable with declared name
`name`, decoration-time sink args `la` and body `b` (source
lines 101-152). -/
def wrapped (sink : Sink) (tn name : String) (la : SinkArgs) (b : Body)
    (args : List PyVal) (kwargs : List (String × PyVal)) (st : ThreadLocal) :
    ThreadLocal × List SinkCall × Except PyErr PyVal :=
  wrappedStep (fun s => runBody sink tn b s) sink tn name la args kwargs st

/-- The state in which the underlying body starts running, for an invocation
of `wrapped` from state `st` under a sink that does not fail the entry
flush: depth bumped, the freshly built open tag pending, the decoration-time
sink args recorded, the clock past the `time.time()` of line 114. -/
def bodyRun (tn name : String) (la : SinkArgs) (b : Body) (args : List PyVal)
    (kwargs : List (String × PyVal)) (st : ThreadLocal) :
    ThreadLocal × List SinkCall × Except PyErr PyVal :=
  runBody perfectSink tn b
    ⟨st.depth + 1,
     some (startString tn name st.depth st.clock (argStrings name args kwargs)),
     la, st.clock + 1⟩

/-- The global sink cell `logfn` of source lines 63-68. -/
structure GlobalSink where
  logfn : PyVal
deriving DecidableEq, Repr

/-- Source lines 65-68, `set_log_method`: the body is a single global
assignment, which cannot raise for any argument; the explicit `Except`
channel makes that absence of checking visible. -/
def set_log_method (fn : PyVal) (_g : GlobalSink) : Except PyErr GlobalSink :=
  Except.ok { logfn := fn }

/-- An object handed to the decorator: its `__name__` attribute when it has
one, and (as `Body`) the behaviour of calling it — for an object that is not
callable, that behaviour is raising `TypeError`, which is how Python fails
when line 122 finally calls it. -/
structure Target where
  pyName : Option String
  body : Body
deriving Repr

/-- Source lines 103-105, `log_method_inner`: `functools.wraps` copies
attributes with `try/except AttributeError` and `getattr(..., '__dict__', {})`,
so decoration succeeds for every target, callable or not; the wrapper is
modelled as the captured sink args paired with the target. -/
def log_method_inner (la : SinkArgs) (t : Target) :
    Except PyErr (SinkArgs × Target) :=
  Except.ok (la, t)

/-- Source lines 101-103, `log_method`: the combinator that captures the
decoration-time sink args. -/
def log_method (la : SinkArgs) : Target → Except PyErr (SinkArgs × Target) :=
  log_method_inner la

/-- The `AttributeError` raised by `func.__name__` (source line 111 or 114)
when the decorated object has no `__name__` attribute; the message is a
representative of Python's type-dependent text. -/
def attributeError : PyErr :=
  ⟨true, "AttributeError", "object has no attribute __name__", 0⟩

/-- The `TypeError` raised when a non-callable object is called. -/
def typeError : PyErr := ⟨true, "TypeError", "object is not callable", 1⟩

/-- Python callability of a value, via its `__call__` attribute. -/
def pyCallable (v : PyVal) : Bool := v.attrs.contains ("__call__")

/-- Invocation of a wrapper produced by `log_method_inner`: the f-string of
source line 114 evaluates `time.time()` and then `func.__name__`, so a
target without a `__name__` attribute raises `AttributeError` at invocation
time, after the clock reading but before any emission or state change;
otherwise the traced call proceeds as `wrapped`. -/
def wrappedT (sink : Sink) (tn : String) (la : SinkArgs) (t : Target)
    (args : List PyVal) (kwargs : List (String × PyVal)) (st : ThreadLocal) :
    ThreadLocal × List SinkCall × Except PyErr PyVal :=
  match t.pyName with
  | none => (({ st with clock := st.clock + 1 }), [], Except.error attributeError)
  | some n => wrapped sink tn n la t.body args kwargs st

/-- Calling the configured sink value: a non-callable `logfn` raises
`TypeError` at the moment a line is emitted through it; a callable sink is
modelled as succeeding. -/
def sinkOf (fn : PyVal) : Sink :=
  fun _ _ => if pyCallable fn then none else some typeError

/-- A sink that always raises, for exercising emission-failure paths. -/
def failSink : Sink := fun _ _ => some ⟨true, "OSError", "sink failed", 7⟩

deriving instance DecidableEq for Except

/-
Support lemmas.
-/

/-- Flushing under a sink that succeeds on the pending line: emit the truthy
pending tag with its recorded args and clear the slot. -/
theorem pso_perfect (st : ThreadLocal) :
    _print_start_once perfectSink st
      = (({ st with start_str := none }), flushTrace st, none) := by
  obtain ⟨d, p, a, c⟩ := st
  unfold _print_start_once flushTrace
  rcases p with _ | s
  · rfl
  · by_cases hs : s = "" <;> simp [hs, perfectSink]

/-- Flushing with nothing pending is a no-op for every sink. -/
theorem pso_none (sink : Sink) (st : ThreadLocal) (h : st.start_str = none) :
    _print_start_once sink st = (st, [], none) := by
  obtain ⟨d, p, a, c⟩ := st
  cases h
  rfl

/-- Flushing never changes the depth. -/
theorem pso_depth (sink : Sink) (st : ThreadLocal) :
    (_print_start_once sink st).1.depth = st.depth := by
  obtain ⟨d, p, a, c⟩ := st
  unfold _print_start_once
  rcases p with _ | s
  · rfl
  · by_cases hs : s = ""
    · simp [hs]
    · rcases h : sink s a with _ | e <;> simp [hs, h]

/-- Whatever the body and the sink do, `wrappedCore` ends in the `finally`
block: depth restored to `indent`, pending slot cleared. -/
theorem wrappedCore_restores
    (runB : ThreadLocal → ThreadLocal × List SinkCall × Except PyErr PyVal)
    (sink : Sink) (tn name : String) (la : SinkArgs) (indent : Nat)
    (s : String) (st1 : ThreadLocal) :
    ((wrappedCore runB sink tn name la indent s st1).1.depth = indent) ∧
    ((wrappedCore runB sink tn name la indent s st1).1.start_str = none) := by
  refine ⟨?_, ?_⟩ <;>
    (simp only [wrappedCore]; repeat' split) <;> simp [finallyUpd]

/-- Unfolding of one wrapped invocation under a sink that does not fail:
the flushed parent line (if any) comes first, then the core's output, acting
from the flushed, clock-bumped state. -/
theorem wrappedStep_perfect
    (runB : ThreadLocal → ThreadLocal × List SinkCall × Except PyErr PyVal)
    (tn name : String) (la : SinkArgs) (args : List PyVal)
    (kwargs : List (String × PyVal)) (st : ThreadLocal) :
    wrappedStep runB perfectSink tn name la args kwargs st
      = ((wrappedCore runB perfectSink tn name la st.depth
            (startString tn name st.depth st.clock (argStrings name args kwargs))
            ⟨st.depth, none, st.logger_args, st.clock + 1⟩).1,
         flushTrace st ++
           (wrappedCore runB perfectSink tn name la st.depth
            (startString tn name st.depth st.clock (argStrings name args kwargs))
            ⟨st.depth, none, st.logger_args, st.clock + 1⟩).2.1,
         (wrappedCore runB perfectSink tn name la st.depth
            (startString tn name st.depth st.clock (argStrings name args kwargs))
            ⟨st.depth, none, st.logger_args, st.clock + 1⟩).2.2) := by
  obtain ⟨d, p, a, c⟩ := st
  unfold wrappedStep
  rw [pso_perfect]
  rfl

/-- Depth is restored by a wrapped invocation under every sink, even one
whose emissions raise. -/
theorem wrappedStep_depth
    (runB : ThreadLocal → ThreadLocal × List SinkCall × Except PyErr PyVal)
    (sink : Sink) (tn name : String) (la : SinkArgs) (args : List PyVal)
    (kwargs : List (String × PyVal)) (st : ThreadLocal) :
    (wrappedStep runB sink tn name la args kwargs st).1.depth = st.depth := by
  unfold wrappedStep
  split
  · next st1 tr1 e heq =>
    have h := pso_depth sink ({ st with clock := st.clock + 1 })
    rw [heq] at h
    exact h
  · exact (wrappedCore_restores _ _ _ _ _ _ _ _).1

/-- If the entry flush does not raise, a wrapped invocation always reaches
its `finally` block and clears the pending slot. -/
theorem wrappedStep_pending
    (runB : ThreadLocal → ThreadLocal × List SinkCall × Except PyErr PyVal)
    (sink : Sink) (tn name : String) (la : SinkArgs) (args : List PyVal)
    (kwargs : List (String × PyVal)) (st : ThreadLocal)
    (h : (_print_start_once sink ({ st with clock := st.clock + 1 })).2.2 = none) :
    (wrappedStep runB sink tn name la args kwargs st).1.start_str = none := by
  unfold wrappedStep
  split
  · next st1 tr1 e heq =>
    rw [heq] at h
    exact absurd h (by simp)
  · exact (wrappedCore_restores _ _ _ _ _ _ _ _).2

/-- Evaluation of `log` under a sink that does not fail. -/
theorem log_perfect (tn m : String) (la : SinkArgs) (st : ThreadLocal) :
    log perfectSink tn m la st
      = (⟨st.depth, none, st.logger_args, st.clock + 1⟩,
         flushTrace st ++ [⟨msgLine tn st.depth st.clock m, la⟩], none) := by
  obtain ⟨d, p, a, c⟩ := st
  unfold log
  rw [pso_perfect]
  rfl

/-- Success with the pending slot untouched: `wrapped` emits the self-closed
line built from the open tag and returns the result. -/
theorem wrappedCore_ok_self
    (runB : ThreadLocal → ThreadLocal × List SinkCall × Except PyErr PyVal)
    (tn name : String) (la : SinkArgs) (indent : Nat) (s : String)
    (st1 st3 : ThreadLocal) (tr2 : List SinkCall) (v : PyVal)
    (hEq : runB ⟨indent + 1, some s, la, st1.clock⟩ = (st3, tr2, Except.ok v))
    (hs : st3.start_str = some s) :
    wrappedCore runB perfectSink tn name la indent s st1
      = (finallyUpd indent st3, tr2 ++ [⟨selfCloseOk s v, la⟩], Except.ok v) := by
  simp only [wrappedCore]
  rw [hEq]
  simp [hs, perfectSink]

/-- Success with the pending slot no longer holding the entry tag:
`wrapped` emits the close-tag line at the entry depth, reading the clock
once more. -/
theorem wrappedCore_ok_close
    (runB : ThreadLocal → ThreadLocal × List SinkCall × Except PyErr PyVal)
    (tn name : String) (la : SinkArgs) (indent : Nat) (s : String)
    (st1 st3 : ThreadLocal) (tr2 : List SinkCall) (v : PyVal)
    (hEq : runB ⟨indent + 1, some s, la, st1.clock⟩ = (st3, tr2, Except.ok v))
    (hs : st3.start_str ≠ some s) :
    wrappedCore runB perfectSink tn name la indent s st1
      = (finallyUpd indent ({ st3 with clock := st3.clock + 1 }),
         tr2 ++ [⟨closeOkLine tn name indent st3.clock v, la⟩],
         Except.ok v) := by
  simp only [wrappedCore]
  rw [hEq]
  simp [hs, perfectSink]

/-- A raised `Exception` with the pending slot untouched: `wrapped` emits the
self-closed error line and re-raises the same error object. -/
theorem wrappedCore_err_self
    (runB : ThreadLocal → ThreadLocal × List SinkCall × Except PyErr PyVal)
    (tn name : String) (la : SinkArgs) (indent : Nat) (s : String)
    (st1 st3 : ThreadLocal) (tr2 : List SinkCall) (e : PyErr)
    (hEq : runB ⟨indent + 1, some s, la, st1.clock⟩ = (st3, tr2, Except.error e))
    (hx : e.isExc = true) (hs : st3.start_str = some s) :
    wrappedCore runB perfectSink tn name la indent s st1
      = (finallyUpd indent st3, tr2 ++ [⟨selfCloseErr s e, la⟩],
         Except.error e) := by
  simp only [wrappedCore]
  rw [hEq]
  simp [hs, hx, exceptRun, perfectSink]

/-- A raised `Exception` with the pending slot no longer holding the entry
tag: `wrapped` emits the close-tag error line and re-raises the same error
object. -/
theorem wrappedCore_err_close
    (runB : ThreadLocal → ThreadLocal × List SinkCall × Except PyErr PyVal)
    (tn name : String) (la : SinkArgs) (indent : Nat) (s : String)
    (st1 st3 : ThreadLocal) (tr2 : List SinkCall) (e : PyErr)
    (hEq : runB ⟨indent + 1, some s, la, st1.clock⟩ = (st3, tr2, Except.error e))
    (hx : e.isExc = true) (hs : st3.start_str ≠ some s) :
    wrappedCore runB perfectSink tn name la indent s st1
      = (finallyUpd indent ({ st3 with clock := st3.clock + 1 }),
         tr2 ++ [⟨closeErrLine tn name indent st3.clock e, la⟩],
         Except.error e) := by
  simp only [wrappedCore]
  rw [hEq]
  simp [hs, hx, exceptRun, perfectSink]

/-- A raised non-`Exception` (`BaseException` only): the handler is skipped,
nothing is emitted for the call, the error propagates, and only the
`finally` block runs. -/
theorem wrappedCore_err_base
    (runB : ThreadLocal → ThreadLocal × List SinkCall × Except PyErr PyVal)
    (sink : Sink) (tn name : String) (la : SinkArgs) (indent : Nat) (s : String)
    (st1 st3 : ThreadLocal) (tr2 : List SinkCall) (e : PyErr)
    (hEq : runB ⟨indent + 1, some s, la, st1.clock⟩ = (st3, tr2, Except.error e))
    (hx : e.isExc = false) :
    wrappedCore runB sink tn name la indent s st1
      = (finallyUpd indent st3, tr2, Except.error e) := by
  simp only [wrappedCore]
  rw [hEq]
  simp [hx]

/-- Running a body under a sink that does not fail either leaves the whole
context untouched with an empty trace (a body that performs no event before
its outcome), or ends with an empty pending slot (as soon as any child event
ran, the slot was flushed and every later traced call restored it to
`none`). -/
theorem runBody_pure_or_flushed (tn : String) (b : Body) :
    ∀ st : ThreadLocal,
      (runBody perfectSink tn b st
         = (st, [], (runBody perfectSink tn b st).2.2))
      ∨ (runBody perfectSink tn b st).1.start_str = none := by
  induction b with
  | ret v => intro st; left; rfl
  | raiseE e => intro st; left; rfl
  | logThen m la k ih =>
    intro st
    right
    simp only [runBody, log_perfect]
    rcases ih ⟨st.depth, none, st.logger_args, st.clock + 1⟩ with h | h
    · rw [h]
    · exact h
  | callThen n la b args kwargs k ihb ihk =>
    intro st
    right
    simp only [runBody]
    rcases hW : wrappedStep (fun s => runBody perfectSink tn b s) perfectSink
        tn n la args kwargs st with ⟨st1, tr1, r⟩
    have hP : st1.start_str = none := by
      have := wrappedStep_pending (fun s => runBody perfectSink tn b s)
        perfectSink tn n la args kwargs st (by rw [pso_perfect])
      rw [hW] at this
      exact this
    rcases r with e | w
    · simpa using hP
    · simp only []
      rcases ihk st1 with h | h
      · rw [h]; exact hP
      · exact h

/-- An open-tag text is never the empty string (so it is truthy for the
flush test). -/
theorem startString_ne_empty (tn name : String) (indent t : Nat)
    (l : List String) : startString tn name indent t l ≠ "" := by
  unfold startString
  intro h
  have h2 := congrArg String.length h
  rw [String.length_append] at h2
  have h3 : String.length (")>") = 2 := rfl
  have h4 : String.length ("") = 0 := rfl
  rw [h3, h4] at h2
  omega

/-- Digits of `Nat.digitChar` below ten are decimal digit characters. -/
theorem digitChar_isDigit (n : Nat) (h : n < 10) :
    (Nat.digitChar n).isDigit = true := by
  interval_cases n <;> rfl

/-- The fractional part of a rendered timestamp has exactly five characters,
all of them digits. -/
theorem frac5_length_digits (t : Nat) :
    (frac5 t).length = 5 ∧ (frac5 t).toList.all (fun c => c.isDigit) = true := by
  constructor
  · simp [frac5, String.length]
  · show (((List.range 5).map fun i =>
        Nat.digitChar (t / 10 ^ (4 - i) % 10)).all fun c => c.isDigit) = true
    rw [List.all_eq_true]
    intro c hc
    rw [List.mem_map] at hc
    obtain ⟨j, hj, rfl⟩ := hc
    exact digitChar_isDigit _ (Nat.mod_lt _ (by decide))

/-- The indentation really is `". "` repeated depth-many times. -/
theorem dots_replicate (d : Nat) :
    dots d = (List.flatten (List.replicate d (['.', ' ']))).asString := by
  induction d with
  | zero => rfl
  | succ n ih =>
    show (". ") ++ dots n = _
    rw [ih]
    rfl

/-- Flushing from a state with nothing pending emits nothing. -/
theorem flushTrace_none (st : ThreadLocal) (h : st.start_str = none) :
    flushTrace st = [] := by
  obtain ⟨d, p, a, c⟩ := st
  have hp : p = none := h
  subst hp
  rfl

/-- Flushing from a state with a truthy pending tag emits exactly that tag
with the recorded sink args. -/
theorem flushTrace_some (st : ThreadLocal) (s : String)
    (h : st.start_str = some s) (hne : s ≠ "") :
    flushTrace st = [⟨s, st.logger_args⟩] := by
  obtain ⟨d, p, a, c⟩ := st
  have hp : p = some s := h
  subst hp
  simp [flushTrace, hne]

/-- Full evaluation of a leaf call (body returns immediately, no child
events) from a state with nothing pending: one self-closed line. -/
theorem wrapped_leaf (tn name : String) (la : SinkArgs) (v : PyVal)
    (args : List PyVal) (kwargs : List (String × PyVal)) (d : Nat)
    (a0 : SinkArgs) (c : Nat) :
    wrapped perfectSink tn name la (Body.ret v) args kwargs ⟨d, none, a0, c⟩
      = (⟨d, none, la, c + 1⟩,
         [⟨selfCloseOk (startString tn name d c (argStrings name args kwargs)) v,
            la⟩],
         Except.ok v) := by
  unfold wrapped
  rw [wrappedStep_perfect]
  dsimp only
  rw [wrappedCore_ok_self (fun s => runBody perfectSink tn (Body.ret v) s) tn name la d (startString tn name d c (argStrings name args kwargs)) ⟨d, none, a0, c + 1⟩ ⟨d + 1, some (startString tn name d c (argStrings name args kwargs)), la, c + 1⟩ [] v rfl rfl]
  dsimp only [flushTrace, finallyUpd]
  rfl


/-
Claim theorems.
-/

/-- C5: the flush primitive emits a pending open-tag text unchanged through
the sink with the sink-args recorded alongside it and then clears the slot;
with nothing pending it emits nothing and is a no-op, so a second call in a
row is equivalent to one call. -/
theorem c5_flush_contract (sink : Sink) (st : ThreadLocal) :
    (∀ s, st.start_str = some s → s ≠ "" → sink s st.logger_args = none →
      _print_start_once sink st
        = (({ st with start_str := none }), [⟨s, st.logger_args⟩], none))
    ∧ (st.start_str = none → _print_start_once sink st = (st, [], none))
    ∧ (st.start_str = none →
        _print_start_once sink ((_print_start_once sink st).1)
          = _print_start_once sink st) := by
  obtain ⟨d, p, a, c⟩ := st
  refine ⟨?_, ?_, ?_⟩
  · intro s hs hne hsink
    have hp : p = some s := hs
    subst hp
    simp [_print_start_once, hne, hsink]
  · intro hp
    have hp2 : p = none := hp
    subst hp2
    rfl
  · intro hp
    have hp2 : p = none := hp
    subst hp2
    rfl

/-- Witness for C5 at a concrete pending open tag. -/
theorem c5_flush_contract_w :
    _print_start_once perfectSink ⟨0, some ("t"), ["u"], 5⟩
      = (⟨0, none, ["u"], 5⟩, [⟨"t", ["u"]⟩], none) :=
  (c5_flush_contract perfectSink ⟨0, some ("t"), ["u"], 5⟩).1 ("t") rfl
    (by decide) rfl

/-- C6: with nothing pending, `log m` at depth `d` emits exactly one line:
a timestamp with exactly five digits after the decimal point, then a bar,
the execution-unit label, a colon and space, the string `". "` repeated
`d` times, then `m` wrapped in double quotes. -/
theorem c6_log_line (tn m : String) (la : SinkArgs) (st : ThreadLocal)
    (h0 : st.start_str = none) :
    log perfectSink tn m la st
      = (⟨st.depth, none, st.logger_args, st.clock + 1⟩,
         [⟨toString (st.clock / 100000) ++ "." ++ frac5 st.clock ++ "|" ++ tn
             ++ ": " ++ dots st.depth ++ "\"" ++ m ++ "\"", la⟩], none)
    ∧ (frac5 st.clock).length = 5
    ∧ (frac5 st.clock).toList.all (fun c => c.isDigit) = true
    ∧ dots st.depth
        = (List.flatten (List.replicate st.depth (['.', ' ']))).asString := by
  refine ⟨?_, (frac5_length_digits _).1, (frac5_length_digits _).2,
    dots_replicate _⟩
  obtain ⟨d, p, a, c⟩ := st
  have hp : p = none := h0
  subst hp
  rw [log_perfect]
  rfl

/-- Witness for C6 at depth two. -/
theorem c6_log_line_w :
    log perfectSink ("MainThread") ("hi") [] ⟨2, none, [], 3⟩
      = (⟨2, none, [], 4⟩, [⟨"0.00003|MainThread: . . \"hi\"", []⟩], none) :=
  ((c6_log_line ("MainThread") ("hi") [] ⟨2, none, [], 3⟩ rfl).1).trans
    (by decide)

/-- C8: when the first positional argument exposes an attribute named like
the wrapped callable, it is elided from the rendered argument list;
otherwise every positional argument is rendered by value in order (keyword
arguments follow as `name=value`); and the rendered list is what the
emitted self-closed line of a leaf invocation carries. -/
theorem c8_self_elision (name : String) (a : PyVal) (rest : List PyVal)
    (kwargs : List (String × PyVal)) :
    (name ∈ a.attrs → argStrings name (a :: rest) kwargs
       = rest.map truncate_str
           ++ kwargs.map (fun p => p.1 ++ "=" ++ truncate_str p.2))
    ∧ (name ∉ a.attrs → argStrings name (a :: rest) kwargs
       = truncate_str a :: rest.map truncate_str
           ++ kwargs.map (fun p => p.1 ++ "=" ++ truncate_str p.2))
    ∧ argStrings name [] kwargs
        = kwargs.map (fun p => p.1 ++ "=" ++ truncate_str p.2)
    ∧ (∀ (tn : String) (la : SinkArgs) (v : PyVal) (d : Nat) (a0 : SinkArgs)
        (c : Nat),
        (wrapped perfectSink tn name la (Body.ret v) (a :: rest) kwargs
            ⟨d, none, a0, c⟩).2.1
          = [⟨selfCloseOk (startString tn name d c
                (argStrings name (a :: rest) kwargs)) v, la⟩]) := by
  refine ⟨?_, ?_, rfl, ?_⟩
  · intro h
    simp [argStrings, h]
  · intro h
    simp [argStrings, h]
  · intro tn la v d a0 c
    rw [wrapped_leaf]

/-- Witness for C8: a bound-method-looking call elides its receiver, a plain
call does not. -/
theorem c8_self_elision_w :
    argStrings ("m") [⟨"obj", ["m"]⟩, ⟨"4", []⟩] []
        = ["4"]
    ∧ argStrings ("m") [⟨"obj", []⟩, ⟨"4", []⟩] []
        = ["obj", "4"]
    ∧ (wrapped perfectSink ("T") ("m") [] (Body.ret ⟨"8", []⟩)
          [⟨"obj", ["m"]⟩, ⟨"4", []⟩] [] ⟨0, none, [], 0⟩).2.1
        = [⟨"0.00000|T: <m(4) -> 8 />", []⟩] := by
  refine ⟨?_, ?_, ?_⟩
  · exact ((c8_self_elision ("m") ⟨"obj", ["m"]⟩ [⟨"4", []⟩] []).1
      (by decide)).trans (by decide)
  · exact ((c8_self_elision ("m") ⟨"obj", []⟩ [⟨"4", []⟩] []).2.1
      (by decide)).trans (by decide)
  · exact ((c8_self_elision ("m") ⟨"obj", ["m"]⟩ [⟨"4", []⟩] []).2.2.2
      ("T") [] ⟨"8", []⟩ 0 [] 0).trans (by decide)

/-- C1 (counterexample): an invocation entered while a parent's open tag is
pending, under a sink whose emission raises at the entry flush (source
line 115, before the `try` block), exits by propagating that error with the
pending slot still holding the parent's tag — the slot is not cleared on
this exit path, refuting the claim that it is cleared on every exit path
even when the tracer's own emission fails. -/
theorem c1_counterexample :
    (wrapped failSink ("MainThread") ("c") [] (Body.ret ⟨"1", []⟩) [] []
        ⟨1, some ("0.00000|MainThread: <p()>"), [], 1⟩).1.start_str
      = some ("0.00000|MainThread: <p()>")
    ∧ (wrapped failSink ("MainThread") ("c") [] (Body.ret ⟨"1", []⟩) [] []
        ⟨1, some ("0.00000|MainThread: <p()>"), [], 1⟩).2.2
      = Except.error ⟨true, "OSError", "sink failed", 7⟩ := by
  constructor <;> decide

/-- C1 (amended): for every invocation of a wrapped callable, the depth is
restored to its exact pre-call value on every exit path under every sink —
even one whose emissions raise — and the pending slot is cleared on every
exit path on which the entry flush of an enclosing pending tag does not
itself raise (in particular on every path whose sink emissions succeed);
when that entry flush raises, the error propagates before this call records
anything and the slot still holds the enclosing tag.  The body always runs
at depth exactly one more than the pre-call depth, observed here by a probe
body that reports the depth it was started at; this holds for arbitrary
bodies, hence for arbitrarily deep and repeated recursive invocation. -/
theorem c1_restoration_amended (sink : Sink) (tn name : String)
    (la : SinkArgs) (b : Body) (args : List PyVal)
    (kwargs : List (String × PyVal)) (st : ThreadLocal) :
    (wrapped sink tn name la b args kwargs st).1.depth = st.depth
    ∧ ((_print_start_once sink ({ st with clock := st.clock + 1 })).2.2 = none →
        (wrapped sink tn name la b args kwargs st).1.start_str = none)
    ∧ (wrappedStep (fun s => (s, [], Except.error ⟨false, "probe", "", s.depth⟩))
         perfectSink tn name la args kwargs st).2.2
        = Except.error ⟨false, "probe", "", st.depth + 1⟩ := by
  refine ⟨wrappedStep_depth _ sink tn name la args kwargs st,
    wrappedStep_pending _ sink tn name la args kwargs st, ?_⟩
  rw [wrappedStep_perfect]
  rw [wrappedCore_err_base (fun s => (s, [], Except.error ⟨false, "probe", "", s.depth⟩)) perfectSink tn name la st.depth (startString tn name st.depth st.clock (argStrings name args kwargs)) ⟨st.depth, none, st.logger_args, st.clock + 1⟩ ⟨st.depth + 1, some (startString tn name st.depth st.clock (argStrings name args kwargs)), la, st.clock + 1⟩ [] ⟨false, "probe", "", st.depth + 1⟩ rfl rfl]

/-- Witness for C1 (amended) on a concrete leaf invocation. -/
theorem c1_restoration_amended_w :
    (wrapped perfectSink ("MainThread") ("f") [] (Body.ret ⟨"1", []⟩) [] []
        ⟨0, none, [], 0⟩).1.depth = 0
    ∧ (wrapped perfectSink ("MainThread") ("f") [] (Body.ret ⟨"1", []⟩) [] []
        ⟨0, none, [], 0⟩).1.start_str = none :=
  ⟨(c1_restoration_amended perfectSink ("MainThread") ("f") []
      (Body.ret ⟨"1", []⟩) [] [] ⟨0, none, [], 0⟩).1,
   (c1_restoration_amended perfectSink ("MainThread") ("f") []
      (Body.ret ⟨"1", []⟩) [] [] ⟨0, none, [], 0⟩).2.1 (by decide)⟩

/-- C9: the wrapper is transparent for results — whenever the underlying
body returns `v` and the sink emissions do not fail, the wrapped invocation
returns exactly `v`. -/
theorem c9_transparent (tn name : String) (la : SinkArgs) (b : Body)
    (args : List PyVal) (kwargs : List (String × PyVal)) (st : ThreadLocal)
    (v : PyVal)
    (hv : (bodyRun tn name la b args kwargs st).2.2 = Except.ok v) :
    (wrapped perfectSink tn name la b args kwargs st).2.2 = Except.ok v := by
  rcases hB : bodyRun tn name la b args kwargs st with ⟨st3, tr2, r⟩
  rw [hB] at hv
  dsimp only at hv
  subst hv
  unfold wrapped
  rw [wrappedStep_perfect]
  dsimp only
  by_cases hs : st3.start_str
      = some (startString tn name st.depth st.clock (argStrings name args kwargs))
  · rw [wrappedCore_ok_self (fun s => runBody perfectSink tn b s) tn name la st.depth (startString tn name st.depth st.clock (argStrings name args kwargs)) ⟨st.depth, none, st.logger_args, st.clock + 1⟩ st3 tr2 v hB hs]
  · rw [wrappedCore_ok_close (fun s => runBody perfectSink tn b s) tn name la st.depth (startString tn name st.depth st.clock (argStrings name args kwargs)) ⟨st.depth, none, st.logger_args, st.clock + 1⟩ st3 tr2 v hB hs]

/-- Witness for C9. -/
theorem c9_transparent_w :
    (wrapped perfectSink ("MainThread") ("double") [] (Body.ret ⟨"8", []⟩)
        [⟨"4", []⟩] [] ⟨0, none, [], 0⟩).2.2 = Except.ok ⟨"8", []⟩ :=
  c9_transparent ("MainThread") ("double") [] (Body.ret ⟨"8", []⟩)
    [⟨"4", []⟩] [] ⟨0, none, [], 0⟩ ⟨"8", []⟩ (by decide)

/-- C10: a non-`Exception` exit (`BaseException` only, e.g.
`KeyboardInterrupt`) propagates unchanged with no close, self-close or
error line emitted for the call — the trace is exactly what the body
emitted — while the `finally` block still restores the depth and clears the
pending slot. -/
theorem c10_base_exit (tn name : String) (la : SinkArgs) (b : Body)
    (args : List PyVal) (kwargs : List (String × PyVal)) (st : ThreadLocal)
    (e : PyErr) (h0 : st.start_str = none) (hx : e.isExc = false)
    (he : (bodyRun tn name la b args kwargs st).2.2 = Except.error e) :
    (wrapped perfectSink tn name la b args kwargs st).2.1
        = (bodyRun tn name la b args kwargs st).2.1
    ∧ (wrapped perfectSink tn name la b args kwargs st).2.2 = Except.error e
    ∧ (wrapped perfectSink tn name la b args kwargs st).1.depth = st.depth
    ∧ (wrapped perfectSink tn name la b args kwargs st).1.start_str = none := by
  rcases hB : bodyRun tn name la b args kwargs st with ⟨st3, tr2, r⟩
  rw [hB] at he
  dsimp only at he
  subst he
  unfold wrapped
  rw [wrappedStep_perfect]
  dsimp only
  rw [wrappedCore_err_base (fun s => runBody perfectSink tn b s) perfectSink tn name la st.depth (startString tn name st.depth st.clock (argStrings name args kwargs)) ⟨st.depth, none, st.logger_args, st.clock + 1⟩ st3 tr2 e hB hx]
  rw [flushTrace_none st h0]
  exact ⟨rfl, rfl, rfl, rfl⟩

/-- Witness for C10: a `KeyboardInterrupt`-like exit. -/
theorem c10_base_exit_w :
    (wrapped perfectSink ("MainThread") ("f") []
        (Body.raiseE ⟨false, "KeyboardInterrupt", "", 3⟩) [] []
        ⟨0, none, [], 0⟩).2.1 = []
    ∧ (wrapped perfectSink ("MainThread") ("f") []
        (Body.raiseE ⟨false, "KeyboardInterrupt", "", 3⟩) [] []
        ⟨0, none, [], 0⟩).2.2
      = Except.error ⟨false, "KeyboardInterrupt", "", 3⟩ := by
  have h := c10_base_exit ("MainThread") ("f") []
    (Body.raiseE ⟨false, "KeyboardInterrupt", "", 3⟩) [] [] ⟨0, none, [], 0⟩
    ⟨false, "KeyboardInterrupt", "", 3⟩ rfl rfl (by decide)
  exact ⟨h.1.trans (by decide), h.2.1⟩

/-- C2: on normal return with value `v` from a state with nothing pending:
if the pending slot still holds exactly the open-tag text recorded at entry
(no child event flushed it), exactly one line is emitted for the call — the
self-closed form, which is the open-tag text with its trailing `>` replaced
by the arrow, the truncated value and ` />`; otherwise the close-tag line at
the pre-call depth is emitted after the body's output.  In both cases the
invocation returns `v`. -/
theorem c2_selfclose_or_close (tn name : String) (la : SinkArgs) (b : Body)
    (args : List PyVal) (kwargs : List (String × PyVal)) (st : ThreadLocal)
    (v : PyVal) (h0 : st.start_str = none)
    (hv : (bodyRun tn name la b args kwargs st).2.2 = Except.ok v) :
    ((bodyRun tn name la b args kwargs st).1.start_str
        = some (startString tn name st.depth st.clock (argStrings name args kwargs)) →
      (wrapped perfectSink tn name la b args kwargs st).2.1
        = [⟨selfCloseOk (startString tn name st.depth st.clock
              (argStrings name args kwargs)) v, la⟩]
      ∧ (bodyRun tn name la b args kwargs st).2.1 = [])
    ∧ ((bodyRun tn name la b args kwargs st).1.start_str
        ≠ some (startString tn name st.depth st.clock (argStrings name args kwargs)) →
      (wrapped perfectSink tn name la b args kwargs st).2.1
        = (bodyRun tn name la b args kwargs st).2.1
          ++ [⟨closeOkLine tn name st.depth
                (bodyRun tn name la b args kwargs st).1.clock v, la⟩])
    ∧ (wrapped perfectSink tn name la b args kwargs st).2.2 = Except.ok v := by
  rcases hB : bodyRun tn name la b args kwargs st with ⟨st3, tr2, r⟩
  rw [hB] at hv
  dsimp only at hv
  subst hv
  dsimp only
  unfold bodyRun at hB
  unfold wrapped
  rw [wrappedStep_perfect]
  dsimp only
  rw [flushTrace_none st h0]
  refine ⟨?_, ?_, ?_⟩
  · intro hs
    have htr : tr2 = [] := by
      rcases runBody_pure_or_flushed tn b ⟨st.depth + 1, some (startString tn name st.depth st.clock (argStrings name args kwargs)), la, st.clock + 1⟩ with hfix | hfl
      · rw [hB] at hfix
        have h2 := congrArg (fun q => q.2.1) hfix
        simpa using h2
      · rw [hB] at hfl
        dsimp only at hfl
        rw [hfl] at hs
        exact Option.noConfusion hs
    refine ⟨?_, htr⟩
    rw [wrappedCore_ok_self (fun s => runBody perfectSink tn b s) tn name la st.depth (startString tn name st.depth st.clock (argStrings name args kwargs)) ⟨st.depth, none, st.logger_args, st.clock + 1⟩ st3 tr2 v hB hs, htr]
    simp
  · intro hs
    rw [wrappedCore_ok_close (fun s => runBody perfectSink tn b s) tn name la st.depth (startString tn name st.depth st.clock (argStrings name args kwargs)) ⟨st.depth, none, st.logger_args, st.clock + 1⟩ st3 tr2 v hB hs]
    simp
  · by_cases hs : st3.start_str
        = some (startString tn name st.depth st.clock (argStrings name args kwargs))
    · rw [wrappedCore_ok_self (fun s => runBody perfectSink tn b s) tn name la st.depth (startString tn name st.depth st.clock (argStrings name args kwargs)) ⟨st.depth, none, st.logger_args, st.clock + 1⟩ st3 tr2 v hB hs]
    · rw [wrappedCore_ok_close (fun s => runBody perfectSink tn b s) tn name la st.depth (startString tn name st.depth st.clock (argStrings name args kwargs)) ⟨st.depth, none, st.logger_args, st.clock + 1⟩ st3 tr2 v hB hs]

/-- Witness for C2: a leaf call self-closes with its return value. -/
theorem c2_selfclose_or_close_w :
    (wrapped perfectSink ("MainThread") ("double") [] (Body.ret ⟨"8", []⟩)
        [⟨"4", []⟩] [] ⟨0, none, [], 0⟩).2.1
      = [⟨"0.00000|MainThread: <double(4) -> 8 />", []⟩] := by
  have h := (c2_selfclose_or_close ("MainThread") ("double") []
    (Body.ret ⟨"8", []⟩) [⟨"4", []⟩] [] ⟨0, none, [], 0⟩ ⟨"8", []⟩ rfl
    (by decide)).1 (by decide)
  exact h.1.trans (by decide)

/-- C4: when the body raises an `Exception` `e` (from a state with nothing
pending), the tracer emits exactly one error-annotated line — the
self-closed error form when no child event occurred (the pending slot still
holds the entry tag), otherwise the close-tag error form at the pre-call
depth after the body's output — and the invocation re-raises the very same
error object `e` unchanged (same kind, message and identity). -/
theorem c4_error_line_and_reraise (tn name : String) (la : SinkArgs)
    (b : Body) (args : List PyVal) (kwargs : List (String × PyVal))
    (st : ThreadLocal) (e : PyErr) (h0 : st.start_str = none)
    (hx : e.isExc = true)
    (he : (bodyRun tn name la b args kwargs st).2.2 = Except.error e) :
    ((bodyRun tn name la b args kwargs st).1.start_str
        = some (startString tn name st.depth st.clock (argStrings name args kwargs)) →
      (wrapped perfectSink tn name la b args kwargs st).2.1
        = [⟨selfCloseErr (startString tn name st.depth st.clock
              (argStrings name args kwargs)) e, la⟩]
      ∧ (bodyRun tn name la b args kwargs st).2.1 = [])
    ∧ ((bodyRun tn name la b args kwargs st).1.start_str
        ≠ some (startString tn name st.depth st.clock (argStrings name args kwargs)) →
      (wrapped perfectSink tn name la b args kwargs st).2.1
        = (bodyRun tn name la b args kwargs st).2.1
          ++ [⟨closeErrLine tn name st.depth
                (bodyRun tn name la b args kwargs st).1.clock e, la⟩])
    ∧ (wrapped perfectSink tn name la b args kwargs st).2.2
        = Except.error e := by
  rcases hB : bodyRun tn name la b args kwargs st with ⟨st3, tr2, r⟩
  rw [hB] at he
  dsimp only at he
  subst he
  dsimp only
  unfold bodyRun at hB
  unfold wrapped
  rw [wrappedStep_perfect]
  dsimp only
  rw [flushTrace_none st h0]
  refine ⟨?_, ?_, ?_⟩
  · intro hs
    have htr : tr2 = [] := by
      rcases runBody_pure_or_flushed tn b ⟨st.depth + 1, some (startString tn name st.depth st.clock (argStrings name args kwargs)), la, st.clock + 1⟩ with hfix | hfl
      · rw [hB] at hfix
        have h2 := congrArg (fun q => q.2.1) hfix
        simpa using h2
      · rw [hB] at hfl
        dsimp only at hfl
        rw [hfl] at hs
        exact Option.noConfusion hs
    refine ⟨?_, htr⟩
    rw [wrappedCore_err_self (fun s => runBody perfectSink tn b s) tn name la st.depth (startString tn name st.depth st.clock (argStrings name args kwargs)) ⟨st.depth, none, st.logger_args, st.clock + 1⟩ st3 tr2 e hB hx hs, htr]
    simp
  · intro hs
    rw [wrappedCore_err_close (fun s => runBody perfectSink tn b s) tn name la st.depth (startString tn name st.depth st.clock (argStrings name args kwargs)) ⟨st.depth, none, st.logger_args, st.clock + 1⟩ st3 tr2 e hB hx hs]
    simp
  · by_cases hs : st3.start_str
        = some (startString tn name st.depth st.clock (argStrings name args kwargs))
    · rw [wrappedCore_err_self (fun s => runBody perfectSink tn b s) tn name la st.depth (startString tn name st.depth st.clock (argStrings name args kwargs)) ⟨st.depth, none, st.logger_args, st.clock + 1⟩ st3 tr2 e hB hx hs]
    · rw [wrappedCore_err_close (fun s => runBody perfectSink tn b s) tn name la st.depth (startString tn name st.depth st.clock (argStrings name args kwargs)) ⟨st.depth, none, st.logger_args, st.clock + 1⟩ st3 tr2 e hB hx hs]

/-- Witness for C4: a leaf call that raises `ValueError` self-closes with
the error annotation and re-raises it. -/
theorem c4_error_line_and_reraise_w :
    (wrapped perfectSink ("MainThread") ("f") []
        (Body.raiseE ⟨true, "ValueError", "bad", 9⟩) [] []
        ⟨0, none, [], 0⟩).2.1
      = [⟨"0.00000|MainThread: <f() !! ValueError: bad />", []⟩]
    ∧ (wrapped perfectSink ("MainThread") ("f") []
        (Body.raiseE ⟨true, "ValueError", "bad", 9⟩) [] []
        ⟨0, none, [], 0⟩).2.2
      = Except.error ⟨true, "ValueError", "bad", 9⟩ := by
  have h := c4_error_line_and_reraise ("MainThread") ("f") []
    (Body.raiseE ⟨true, "ValueError", "bad", 9⟩) [] [] ⟨0, none, [], 0⟩
    ⟨true, "ValueError", "bad", 9⟩ rfl rfl (by decide)
  exact ⟨((h.1 (by decide)).1).trans (by decide), h.2.2⟩

/-- C3: a wrapped callable A whose body invokes wrapped callable B (and
nothing else emits) produces A's open-tag line first — flushed by B's entry
— then B's complete block, which is the output of B's invocation at depth
one deeper than A, then A's close-tag line (not self-closed) at A's
original depth; and when B is a leaf its block is a single self-closed
line whose tag carries the one-deeper indentation. -/
theorem c3_nesting (tn nA nB : String) (laA laB : SinkArgs) (bB : Body)
    (psB : List PyVal) (ksB : List (String × PyVal)) (psA : List PyVal)
    (ksA : List (String × PyVal)) (st : ThreadLocal) (vA w : PyVal)
    (h0 : st.start_str = none)
    (hB : (wrapped perfectSink tn nB laB bB psB ksB
        ⟨st.depth + 1, none, laA, st.clock + 1⟩).2.2 = Except.ok w) :
    (wrapped perfectSink tn nA laA
        (Body.callThen nB laB bB psB ksB (Body.ret vA)) psA ksA st).2.1
      = ⟨startString tn nA st.depth st.clock (argStrings nA psA ksA), laA⟩
          :: (wrapped perfectSink tn nB laB bB psB ksB
                ⟨st.depth + 1, none, laA, st.clock + 1⟩).2.1
          ++ [⟨closeOkLine tn nA st.depth
                (wrapped perfectSink tn nB laB bB psB ksB
                  ⟨st.depth + 1, none, laA, st.clock + 1⟩).1.clock vA, laA⟩]
    ∧ (wrapped perfectSink tn nA laA
        (Body.callThen nB laB bB psB ksB (Body.ret vA)) psA ksA st).2.2
      = Except.ok vA
    ∧ (bB = Body.ret w →
        (wrapped perfectSink tn nB laB bB psB ksB
            ⟨st.depth + 1, none, laA, st.clock + 1⟩).2.1
          = [⟨selfCloseOk (startString tn nB (st.depth + 1) (st.clock + 1)
                (argStrings nB psB ksB)) w, laB⟩]) := by
  rcases hRB : wrapped perfectSink tn nB laB bB psB ksB ⟨st.depth + 1, none, laA, st.clock + 1⟩ with ⟨stB, trB, rB⟩
  rw [hRB] at hB
  dsimp only at hB
  subst hB
  unfold wrapped at hRB
  have hpend : stB.start_str = none := by
    have h := wrappedStep_pending (fun s => runBody perfectSink tn bB s)
      perfectSink tn nB laB psB ksB ⟨st.depth + 1, none, laA, st.clock + 1⟩
      (by rw [pso_perfect])
    rw [hRB] at h
    exact h
  have hWA : wrappedStep (fun s => runBody perfectSink tn bB s) perfectSink tn nB laB psB ksB ⟨st.depth + 1, some (startString tn nA st.depth st.clock (argStrings nA psA ksA)), laA, st.clock + 1⟩ = (stB, ⟨startString tn nA st.depth st.clock (argStrings nA psA ksA), laA⟩ :: trB, Except.ok w) := by
    rw [wrappedStep_perfect] at hRB ⊢
    rw [flushTrace_some ⟨st.depth + 1, some (startString tn nA st.depth st.clock (argStrings nA psA ksA)), laA, st.clock + 1⟩ (startString tn nA st.depth st.clock (argStrings nA psA ksA)) rfl (startString_ne_empty tn nA st.depth st.clock (argStrings nA psA ksA))]
    rw [flushTrace_none ⟨st.depth + 1, none, laA, st.clock + 1⟩ rfl] at hRB
    dsimp only at hRB ⊢
    simp only [Prod.mk.injEq] at hRB ⊢
    obtain ⟨h1, h2, h3⟩ := hRB
    rw [List.nil_append] at h2
    exact ⟨h1, by rw [h2]; rfl, h3⟩
  have hbodyA : runBody perfectSink tn (Body.callThen nB laB bB psB ksB (Body.ret vA)) ⟨st.depth + 1, some (startString tn nA st.depth st.clock (argStrings nA psA ksA)), laA, st.clock + 1⟩ = (stB, ⟨startString tn nA st.depth st.clock (argStrings nA psA ksA), laA⟩ :: trB, Except.ok vA) := by
    simp only [runBody]
    rw [hWA]
    simp [runBody]
  have hsB : stB.start_str
      ≠ some (startString tn nA st.depth st.clock (argStrings nA psA ksA)) := by
    intro hcon
    rw [hpend] at hcon
    exact Option.noConfusion hcon
  unfold wrapped
  rw [wrappedStep_perfect]
  dsimp only
  rw [flushTrace_none st h0]
  rw [wrappedCore_ok_close (fun s => runBody perfectSink tn (Body.callThen nB laB bB psB ksB (Body.ret vA)) s) tn nA laA st.depth (startString tn nA st.depth st.clock (argStrings nA psA ksA)) ⟨st.depth, none, st.logger_args, st.clock + 1⟩ stB (⟨startString tn nA st.depth st.clock (argStrings nA psA ksA), laA⟩ :: trB) vA hbodyA hsB]
  refine ⟨by simp, rfl, ?_⟩
  intro hbb
  subst hbb
  have hleaf := wrapped_leaf tn nB laB w psB ksB (st.depth + 1) laA (st.clock + 1)
  unfold wrapped at hleaf
  have hcomb := hleaf.symm.trans hRB
  simp only [Prod.mk.injEq] at hcomb
  exact hcomb.2.1.symm

/-- Witness for C3: `sum` calling a leaf `double`, reproducing the nested
three-line block of the module docstring. -/
theorem c3_nesting_w :
    (wrapped perfectSink ("MainThread") ("sum") []
        (Body.callThen ("double") [] (Body.ret ⟨"8", []⟩) [⟨"4", []⟩] []
          (Body.ret ⟨"10", []⟩)) [⟨"2", []⟩, ⟨"3", []⟩] []
        ⟨0, none, [], 0⟩).2.1
      = [⟨"0.00000|MainThread: <sum(2, 3)>", []⟩,
         ⟨"0.00001|MainThread: . <double(4) -> 8 />", []⟩,
         ⟨"0.00002|MainThread: </sum -> 10>", []⟩] := by
  have h := c3_nesting ("MainThread") ("sum") ("double") [] []
    (Body.ret ⟨"8", []⟩) [⟨"4", []⟩] [] [⟨"2", []⟩, ⟨"3", []⟩] []
    ⟨0, none, [], 0⟩ ⟨"10", []⟩ ⟨"8", []⟩ rfl (by decide)
  exact h.1.trans (by decide)

/-- C7 (counterexample): decorating a non-callable object (one with neither
`__name__` nor `__call__`, e.g. the integer 42) and installing a
non-callable value as the sink both return normally — neither misuse raises
an error at the point of misuse, refuting the fail-fast claim. -/
theorem c7_counterexample :
    log_method_inner [] ⟨none, Body.ret ⟨"0", []⟩⟩
        = Except.ok ([], ⟨none, Body.ret ⟨"0", []⟩⟩)
    ∧ set_log_method ⟨"42", []⟩ ⟨⟨"print", ["__call__"]⟩⟩
        = Except.ok ⟨⟨"42", []⟩⟩ :=
  ⟨rfl, rfl⟩

/-- C7 (amended): applying the tracer combinator to any target — callable or
not — succeeds, and configuring any value as the sink succeeds; the failure
from either misuse is deferred: invoking the wrapper of a target without a
`__name__` attribute raises `AttributeError` at invocation time (before any
emission), and emitting through a configured non-callable sink raises
`TypeError` at the first emission. -/
theorem c7_deferred (la : SinkArgs) (t : Target) (fn : PyVal) (g : GlobalSink)
    (sink : Sink) (tn m : String) (la2 : SinkArgs) (args : List PyVal)
    (kwargs : List (String × PyVal)) (st st2 : ThreadLocal) :
    log_method_inner la t = Except.ok (la, t)
    ∧ set_log_method fn g = Except.ok ⟨fn⟩
    ∧ (t.pyName = none →
        wrappedT sink tn la t args kwargs st
          = (({ st with clock := st.clock + 1 }), [],
             Except.error attributeError))
    ∧ (pyCallable fn = false → st2.start_str = none →
        (log (sinkOf fn) tn m la2 st2).2.2 = some typeError) := by
  refine ⟨rfl, rfl, ?_, ?_⟩
  · intro h
    unfold wrappedT
    rw [h]
  · intro hfn h2
    unfold log
    rw [pso_none _ _ h2]
    dsimp only
    unfold sinkOf
    rw [hfn]
    rfl

/-- Witness for C7 (amended): the deferred failures at concrete inputs. -/
theorem c7_deferred_w :
    wrappedT perfectSink ("MainThread") [] ⟨none, Body.ret ⟨"0", []⟩⟩ [] []
        ⟨0, none, [], 0⟩
      = (⟨0, none, [], 1⟩, [], Except.error attributeError)
    ∧ (log (sinkOf ⟨"42", []⟩) ("MainThread") ("x") []
        ⟨0, none, [], 0⟩).2.2 = some typeError :=
  ⟨(c7_deferred [] ⟨none, Body.ret ⟨"0", []⟩⟩ ⟨"42", []⟩ ⟨⟨"p", []⟩⟩
      perfectSink ("MainThread") ("x") [] [] [] ⟨0, none, [], 0⟩
      ⟨0, none, [], 0⟩).2.2.1 rfl,
   (c7_deferred [] ⟨none, Body.ret ⟨"0", []⟩⟩ ⟨"42", []⟩ ⟨⟨"p", []⟩⟩
      perfectSink ("MainThread") ("x") [] [] [] ⟨0, none, [], 0⟩
      ⟨0, none, [], 0⟩).2.2.2 (by decide) rfl⟩
